import Mathlib

/-!
Verification of the car-box-2d repository (controls.js, render.js, world.js
and the fixed-timestep loop driver) against its natural-language spec.

The JavaScript modules are shallowly embedded: numbers become exact
rationals (ℚ), nullable references become `Option`, objects become
structures, and each method becomes a pure function from the old state to
the new state (and, for drawing routines, to a description of what is
drawn).
-/

namespace CarBox

/-- A 2D point/vector with rational coordinates (models the `{x, y}`
objects used throughout render.js and Planck `Vec2`). -/
structure Vec where
  x : ℚ
  y : ℚ
deriving DecidableEq

/-- Construction-time options for the renderer (render.js `opts`); `none`
models an absent property, handled by the `??` defaults in the
constructor. -/
structure RenderOpts where
  baseScale : Option ℚ := none
  zoom : Option ℚ := none
  minZoom : Option ℚ := none
  maxZoom : Option ℚ := none
  damping : Option ℚ := none
  offsetX : Option ℚ := none
  offsetY : Option ℚ := none
  horizon : Option ℚ := none
deriving DecidableEq

/-- Mutable state of the `Renderer` class (render.js): configuration
fields fixed at construction, the camera, and the followed target.
`target` is the followed body, modelled by its current position
(`none` = no body followed). `canvasW`/`canvasH` model
`canvas.width`/`canvas.height` in device pixels. -/
structure Renderer where
  baseScale : ℚ
  zoom : ℚ
  minZoom : ℚ
  maxZoom : ℚ
  damping : ℚ
  offsetX : ℚ
  offsetY : ℚ
  horizon : ℚ
  canvasW : ℚ
  canvasH : ℚ
  target : Option Vec
  camera : Vec
deriving DecidableEq

/-- Renderer `_getTargetPos`: the target position, or `{x:0, y:0}` when
there is no target. -/
def getTargetPos (r : Renderer) : Vec :=
  r.target.getD ⟨0, 0⟩

/-- Renderer constructor (render.js): applies the `??` defaults
(baseScale 30, zoom 1, minZoom 0.5, maxZoom 2.0, damping 0.12,
offsetX 4.0, offsetY 0.8, horizon 0.45) and initialises the camera at the
target position plus the follow offsets. Note: the initial zoom option is
NOT clamped. -/
def mkRenderer (targetPos : Option Vec) (canvasW canvasH : ℚ)
    (opts : RenderOpts) : Renderer :=
  let baseScale := opts.baseScale.getD 30
  let zoom := opts.zoom.getD 1
  let minZoom := opts.minZoom.getD (1/2)
  let maxZoom := opts.maxZoom.getD 2
  let damping := opts.damping.getD (12/100)
  let offsetX := opts.offsetX.getD 4
  let offsetY := opts.offsetY.getD (8/10)
  let horizon := opts.horizon.getD (45/100)
  let p := targetPos.getD ⟨0, 0⟩
  { baseScale := baseScale, zoom := zoom, minZoom := minZoom,
    maxZoom := maxZoom, damping := damping, offsetX := offsetX,
    offsetY := offsetY, horizon := horizon,
    canvasW := canvasW, canvasH := canvasH, target := targetPos,
    camera := ⟨p.x + offsetX, p.y + offsetY⟩ }

/-- Renderer `adjustZoom(delta)`:
`this.zoom = Math.min(this.maxZoom, Math.max(this.minZoom, this.zoom + delta))`. -/
def adjustZoom (r : Renderer) (delta : ℚ) : Renderer :=
  { r with zoom := min r.maxZoom (max r.minZoom (r.zoom + delta)) }

/-- Renderer `setZoom(z)`:
`this.zoom = Math.min(this.maxZoom, Math.max(this.minZoom, z))`. -/
def setZoom (r : Renderer) (z : ℚ) : Renderer :=
  { r with zoom := min r.maxZoom (max r.minZoom z) }

/-- Renderer `resetCamera()`: snap the camera to the target position plus
the follow offsets and set zoom to 1. -/
def resetCamera (r : Renderer) : Renderer :=
  let p := getTargetPos r
  { r with camera := ⟨p.x + r.offsetX, p.y + r.offsetY⟩, zoom := 1 }

/-- Renderer `setTarget(target)`: replace the followed body, then
`resetCamera`. -/
def setTarget (r : Renderer) (t : Option Vec) : Renderer :=
  resetCamera { r with target := t }

/-- Renderer `_followTarget()`: no-op when there is no target; otherwise
move the camera a `damping` fraction of the way toward the target
position plus the offsets. -/
def followTarget (r : Renderer) : Renderer :=
  match r.target with
  | none => r
  | some t =>
      let aim : Vec := ⟨t.x + r.offsetX, t.y + r.offsetY⟩
      let a := r.damping
      { r with camera := ⟨r.camera.x + (aim.x - r.camera.x) * a,
                          r.camera.y + (aim.y - r.camera.y) * a⟩ }

/-- Renderer `_scale()`: pixels per meter at the current zoom. -/
def scale (r : Renderer) : ℚ :=
  r.baseScale * r.zoom

/-- Renderer `_screenCenter()`: `{x: canvas.width * 0.5,
y: canvas.height * horizon}`. -/
def screenCenter (r : Renderer) : Vec :=
  ⟨r.canvasW * (1/2), r.canvasH * r.horizon⟩

/-- Renderer `_toScreen(vec)`: world meters to screen device pixels. -/
def toScreen (r : Renderer) (v : Vec) : Vec :=
  let s := scale r
  let c := screenCenter r
  ⟨(v.x - r.camera.x) * s + c.x, (r.camera.y - v.y) * s + c.y⟩

/-- The inverse projection implicitly used by `_drawGrid` to compute the
visible world bounds from screen coordinates: at screen x `sx` the world
x is `camera.x + (sx - c.x) / s`, and at screen y `sy` the world y is
`camera.y + (c.y - sy) / s` (so screen 0/width/height reproduce the
`left` / `right` / `top` / `bottom` expressions of `_drawGrid`). -/
def fromScreen (r : Renderer) (p : Vec) : Vec :=
  let s := scale r
  let c := screenCenter r
  ⟨r.camera.x + (p.x - c.x) / s, r.camera.y + (c.y - p.y) / s⟩

/-- One renderer operation, as named in the claim: `adjustZoom`,
`setZoom`, `resetCamera`, `setTarget` or `render` (whose only effect on
the renderer state is `_followTarget`). -/
inductive ROp where
  | adjustZoom (d : ℚ)
  | setZoom (z : ℚ)
  | resetCamera
  | setTarget (t : Option Vec)
  | render

/-- Apply one renderer operation to the renderer state. -/
def applyOp (r : Renderer) : ROp → Renderer
  | ROp.adjustZoom d => adjustZoom r d
  | ROp.setZoom z => setZoom r z
  | ROp.resetCamera => resetCamera r
  | ROp.setTarget t => setTarget r t
  | ROp.render => followTarget r

/-- Apply a sequence of renderer operations in order. -/
def applyOps (r : Renderer) (ops : List ROp) : Renderer :=
  ops.foldl applyOp r

/-- Zoom lies within the configured clamp bounds. -/
def zoomInRange (r : Renderer) : Prop :=
  r.minZoom ≤ r.zoom ∧ r.zoom ≤ r.maxZoom

/-- The zoom bounds are coherent and admit the reset value 1 (needed
because `resetCamera` writes zoom 1 without clamping). -/
def wellFormedZoom (r : Renderer) : Prop :=
  r.minZoom ≤ r.maxZoom ∧ r.minZoom ≤ 1 ∧ 1 ≤ r.maxZoom

/-- A Planck shape as read by the renderer: its `getType()` string and
the engine fields the drawing code touches (`m_vertices`, `m_p`,
`m_radius`, `m_vertex1`, `m_vertex2`). `vertices = none` models a shape
object without an `m_vertices` array. -/
structure Shape where
  kind : String
  vertices : Option (List Vec) := none
  p : Vec := ⟨0, 0⟩
  radius : ℚ := 0
  vertex1 : Vec := ⟨0, 0⟩
  vertex2 : Vec := ⟨0, 0⟩

/-- What one `_draw*` call strokes onto the canvas: a circle, a closed
polygon path, a single segment, an open polyline, or nothing at all
(silent no-op). -/
inductive DrawResult where
  | circle (center : Vec) (radius : ℚ)
  | closedPolygon (pts : List Vec)
  | segment (a b : Vec)
  | openPolyline (pts : List Vec)
  | nothing
deriving DecidableEq

/-- Renderer `_drawCircle`: stroke a circle at the transformed center
with radius scaled by the current pixels-per-unit. `bw` is the body's
`getWorldPoint` transform. -/
def drawCircle (r : Renderer) (bw : Vec → Vec) (s : Shape) : DrawResult :=
  DrawResult.circle (toScreen r (bw s.p)) (s.radius * scale r)

/-- Renderer `_drawPolygon`: no-op when `m_vertices` is missing or
empty, else a closed stroked path through the transformed vertices. -/
def drawPolygon (r : Renderer) (bw : Vec → Vec) (s : Shape) : DrawResult :=
  match s.vertices with
  | none => DrawResult.nothing
  | some verts =>
      if verts.length = 0 then DrawResult.nothing
      else DrawResult.closedPolygon (verts.map (fun q => toScreen r (bw q)))

/-- Renderer `_drawEdge`: a single stroked segment between the two
transformed edge vertices. -/
def drawEdge (r : Renderer) (bw : Vec → Vec) (s : Shape) : DrawResult :=
  DrawResult.segment (toScreen r (bw s.vertex1)) (toScreen r (bw s.vertex2))

/-- Renderer `_drawChain`: no-op when `m_vertices` is missing or has
fewer than 2 entries, else an open stroked polyline through the
transformed vertices. -/
def drawChain (r : Renderer) (bw : Vec → Vec) (s : Shape) : DrawResult :=
  match s.vertices with
  | none => DrawResult.nothing
  | some verts =>
      if verts.length < 2 then DrawResult.nothing
      else DrawResult.openPolyline (verts.map (fun q => toScreen r (bw q)))

/-- Renderer `_drawFixture`: dispatch on the shape type string; for an
unrecognised type, fall back to `_drawChain` when an `m_vertices` array
with nonzero length exists, else silently no-op. -/
def drawFixture (r : Renderer) (bw : Vec → Vec) (s : Shape) : DrawResult :=
  if s.kind = "circle" then drawCircle r bw s
  else if s.kind = "polygon" then drawPolygon r bw s
  else if s.kind = "edge" then drawEdge r bw s
  else if s.kind = "chain" then drawChain r bw s
  else
    match s.vertices with
    | some verts =>
        if verts.length = 0 then DrawResult.nothing else drawChain r bw s
    | none => DrawResult.nothing

/-- A body as seen by the renderer: its `getWorldPoint` transform and
the shapes of its fixture list. -/
structure Body where
  worldPoint : Vec → Vec
  shapes : List Shape

/-- The world as seen by the renderer: its body list. -/
def World : Type := List Body

/-- Renderer `render()`: update the camera via `_followTarget`, then
draw every fixture of every body (the cleared canvas and debug grid
carry no renderer state). Returns the new renderer state and the list
of stroked results. -/
def renderFrame (r : Renderer) (w : World) : Renderer × List DrawResult :=
  let r2 := followTarget r
  (r2, w.foldr (fun b acc => b.shapes.map (drawFixture r2 b.worldPoint) ++ acc) [])

/-- controls.js guard: `e.target && (e.target.tagName === 'INPUT' ||
e.target.tagName === 'TEXTAREA')`; `none` models a null event target. -/
def isTextInputTag : Option String → Bool
  | some t => t == "INPUT" || t == "TEXTAREA"
  | none => false

/-- Which callbacks one keydown event invoked (as counts) and whether
`preventDefault` was called. -/
structure Dispatch where
  togglePause : ℕ
  reset : ℕ
  zoomIn : ℕ
  zoomOut : ℕ
  prevented : Bool
deriving DecidableEq

/-- The outcome when no callback fires and the default is not
prevented. -/
def noDispatch : Dispatch :=
  ⟨0, 0, 0, 0, false⟩

/-- The keydown handler installed by `setupControls` (controls.js):
return early on a text-input-like target, then switch on `e.key`,
calling `preventDefault` and exactly one callback per bound key. -/
def handleKeydown (tag : Option String) (key : String) : Dispatch :=
  if isTextInputTag tag then noDispatch
  else if key = " " then { noDispatch with prevented := true, togglePause := 1 }
  else if key = "r" ∨ key = "R" then { noDispatch with prevented := true, reset := 1 }
  else if key = "+" ∨ key = "=" then { noDispatch with prevented := true, zoomIn := 1 }
  else if key = "-" ∨ key = "_" then { noDispatch with prevented := true, zoomOut := 1 }
  else noDispatch

/-- The keys bound by `setupControls`. -/
def boundKeys : List String :=
  [" ", "r", "R", "+", "=", "-", "_"]

/-- world.js terrain height: `Math.sin(i * 0.20) * 0.5 +
Math.sin(i * 0.05) * 0.2`, with the sine function abstracted as a
parameter (the embedding stays exact over ℚ; any fixed `sine` models
`Math.sin`). -/
def terrainY (sine : ℚ → ℚ) (x : ℚ) : ℚ :=
  sine (x * (1/5)) * (1/2) + sine (x * (1/20)) * (1/5)

/-- world.js terrain loop: `for (let i = -50; i <= 150; i += 1)` pushes
`Vec2(i, y(i))`; index `n` of the resulting list corresponds to
`i = n − 50`, giving 201 points. -/
def terrainPoints (sine : ℚ → ℚ) : List Vec :=
  (List.range 201).map
    (fun (n : ℕ) => ⟨(n : ℚ) - 50, terrainY sine ((n : ℚ) - 50)⟩)

/-- Modelled from the spec: the fixed physics timestep of the loop
driver, 1/60 s (the loop driver entry file is not among the sources;
§4.5 of the spec defines it). -/
def fixedStep : ℚ :=
  1/60

/-- Modelled from the spec: the catch-up loop of the loop driver,
`while accumulator ≥ fixedStep: call Stepper with fixedStep;
accumulator −= fixedStep`. Returns the residual accumulator and the
number of Stepper calls. -/
def drain (acc : ℚ) : ℚ × ℕ :=
  if h : fixedStep ≤ acc then
    let r := drain (acc - fixedStep)
    (r.1, r.2 + 1)
  else
    (acc, 0)
termination_by (⌊60 * acc⌋).toNat
decreasing_by
  have h1 : (1:ℚ) ≤ 60 * acc := by
    rw [fixedStep] at h
    linarith
  have h2 : (1:ℤ) ≤ ⌊(60:ℚ) * acc⌋ := by
    rw [Int.le_floor]
    exact_mod_cast h1
  have h3 : (60:ℚ) * (acc - fixedStep) = 60 * acc - (1:ℤ) := by
    rw [fixedStep]
    push_cast
    ring
  rw [h3, Int.floor_sub_int]
  omega

/-- Modelled from the spec: one display frame of the loop driver with
the simulation state `(accumulator, steps so far)` — add the frame's
delta to the accumulator, then, when not paused, drain it in fixed
steps. -/
def frame (paused : Bool) (st : ℚ × ℕ) (delta : ℚ) : ℚ × ℕ :=
  let acc := st.1 + delta
  if paused then (acc, st.2)
  else
    let r := drain acc
    (r.1, st.2 + r.2)

/-- Modelled from the spec: process a sequence of frame delta-times
starting from a zero accumulator and zero steps. -/
def runFrames (paused : Bool) (deltas : List ℚ) : ℚ × ℕ :=
  deltas.foldl (frame paused) (0, 0)

/-- C4: for every world point, `_toScreen` computes
`screen.x = (world.x − camera.x) × (baseScale × zoom) + canvasW/2` and
`screen.y = (camera.y − world.y) × (baseScale × zoom) + canvasH × horizon`. -/
theorem C4_projection_formula (r : Renderer) (v : Vec) :
    (toScreen r v).x
        = (v.x - r.camera.x) * (r.baseScale * r.zoom) + r.canvasW / 2
    ∧ (toScreen r v).y
        = (r.camera.y - v.y) * (r.baseScale * r.zoom) + r.canvasH * r.horizon := by
  constructor
  · simp [toScreen, scale, screenCenter]
    ring
  · simp [toScreen, scale, screenCenter]

/-- C3: for every world point, camera, nonzero scale and screen center,
the world-to-screen projection followed by the inverse projection used by
the grid code returns the original point exactly (over exact
arithmetic). -/
theorem C3_projection_roundtrip (r : Renderer) (v : Vec)
    (hs : r.baseScale * r.zoom ≠ 0) :
    fromScreen r (toScreen r v) = v := by
  obtain ⟨vx, vy⟩ := v
  simp only [fromScreen, toScreen, scale, screenCenter, Vec.mk.injEq]
  constructor
  · field_simp
  · field_simp
    ring

/-- Witness for C3 at a concrete renderer and point. -/
theorem C3_projection_roundtrip_witness :
    fromScreen (mkRenderer (some ⟨0, 1⟩) 960 540 {}) (toScreen (mkRenderer (some ⟨0, 1⟩) 960 540 {}) ⟨3, 7⟩) = ⟨3, 7⟩ :=
  C3_projection_roundtrip (mkRenderer (some ⟨0, 1⟩) 960 540 {}) ⟨3, 7⟩ (by simp [mkRenderer])

/-- Helper: every renderer operation leaves the zoom bounds unchanged
and keeps `wellFormedZoom` and `zoomInRange`. -/
theorem applyOp_preserves (r : Renderer) (op : ROp)
    (hwf : wellFormedZoom r) (hz : zoomInRange r) :
    wellFormedZoom (applyOp r op) ∧ zoomInRange (applyOp r op) := by
  obtain ⟨hmm, h1, h2⟩ := hwf
  cases op with
  | adjustZoom d =>
      refine ⟨⟨hmm, h1, h2⟩, ?_, ?_⟩
      · exact le_min hmm (le_max_left _ _)
      · exact min_le_left _ _
  | setZoom z =>
      refine ⟨⟨hmm, h1, h2⟩, ?_, ?_⟩
      · exact le_min hmm (le_max_left _ _)
      · exact min_le_left _ _
  | resetCamera =>
      exact ⟨⟨hmm, h1, h2⟩, h1, h2⟩
  | setTarget t =>
      exact ⟨⟨hmm, h1, h2⟩, h1, h2⟩
  | render =>
      cases ht : r.target with
      | none =>
          simp only [applyOp, followTarget, ht]
          exact ⟨⟨hmm, h1, h2⟩, hz⟩
      | some t =>
          simp only [applyOp, followTarget, ht]
          exact ⟨⟨hmm, h1, h2⟩, hz⟩

/-- Helper: the invariant extends over a whole operation sequence. -/
theorem applyOps_preserves (ops : List ROp) (r : Renderer)
    (hwf : wellFormedZoom r) (hz : zoomInRange r) :
    wellFormedZoom (applyOps r ops) ∧ zoomInRange (applyOps r ops) := by
  induction ops generalizing r with
  | nil => exact ⟨hwf, hz⟩
  | cons op rest ih =>
      have h := applyOp_preserves r op hwf hz
      simpa [applyOps, List.foldl] using ih (applyOp r op) h.1 h.2

/-- C1 counterexample: the constructor does not clamp the initial zoom
option, so after construction with `opts.zoom = 10` and the default
bounds `[0.5, 2.0]`, the zoom (10) exceeds `maxZoom` (2). -/
theorem C1_counterexample :
    ¬ ((mkRenderer none 960 540 { zoom := some 10 }).zoom
        ≤ (mkRenderer none 960 540 { zoom := some 10 }).maxZoom) := by
  decide

/-- C1 (amended): provided the construction options yield coherent
bounds (`minZoom ≤ maxZoom`), bounds admitting the reset value
(`minZoom ≤ 1 ≤ maxZoom`) and an initial zoom inside the bounds, every
sequence of renderer operations keeps zoom in `[minZoom, maxZoom]`, and
`adjustZoom`/`setZoom` always set zoom to the argument-derived value
clamped to `[minZoom, maxZoom]`. -/
theorem C1_zoom_invariant (tp : Option Vec) (cw ch : ℚ) (opts : RenderOpts)
    (ops : List ROp)
    (hwf : wellFormedZoom (mkRenderer tp cw ch opts))
    (hz : zoomInRange (mkRenderer tp cw ch opts)) :
    zoomInRange (applyOps (mkRenderer tp cw ch opts) ops)
    ∧ (∀ s : Renderer, ∀ d : ℚ,
        (adjustZoom s d).zoom = min s.maxZoom (max s.minZoom (s.zoom + d)))
    ∧ (∀ s : Renderer, ∀ z : ℚ,
        (setZoom s z).zoom = min s.maxZoom (max s.minZoom z)) :=
  ⟨(applyOps_preserves ops _ hwf hz).2, fun _ _ => rfl, fun _ _ => rfl⟩

/-- Witness for C1 at concrete options and a concrete operation
sequence. -/
theorem C1_zoom_invariant_witness :
    zoomInRange (applyOps
      (mkRenderer none 960 540 { zoom := some 1, minZoom := some 1, maxZoom := some 2 })
      [ROp.adjustZoom 10, ROp.resetCamera])
    ∧ (∀ s : Renderer, ∀ d : ℚ,
        (adjustZoom s d).zoom = min s.maxZoom (max s.minZoom (s.zoom + d)))
    ∧ (∀ s : Renderer, ∀ z : ℚ,
        (setZoom s z).zoom = min s.maxZoom (max s.minZoom z)) :=
  C1_zoom_invariant none 960 540
    { zoom := some 1, minZoom := some 1, maxZoom := some 2 }
    [ROp.adjustZoom 10, ROp.resetCamera]
    ⟨by decide, by decide, by decide⟩ ⟨by decide, by decide⟩

/-- C6: `resetCamera` sets the camera exactly to the followed body's
position plus the configured offsets, with no damping factor, and sets
zoom to exactly 1, for every renderer state and followed position. -/
theorem C6_resetCamera (r : Renderer) (p : Vec) (h : r.target = some p) :
    (resetCamera r).camera = ⟨p.x + r.offsetX, p.y + r.offsetY⟩
    ∧ (resetCamera r).zoom = 1 := by
  constructor
  · simp [resetCamera, getTargetPos, h]
  · rfl

/-- Witness for C6 at a concrete renderer and target position. -/
theorem C6_resetCamera_witness :
    (resetCamera (mkRenderer (some ⟨2, 3⟩) 960 540 {})).camera
        = ⟨2 + (mkRenderer (some ⟨2, 3⟩) 960 540 {}).offsetX,
           3 + (mkRenderer (some ⟨2, 3⟩) 960 540 {}).offsetY⟩
    ∧ (resetCamera (mkRenderer (some ⟨2, 3⟩) 960 540 {})).zoom = 1 :=
  C6_resetCamera (mkRenderer (some ⟨2, 3⟩) 960 540 {}) ⟨2, 3⟩ rfl

/-- C7: when the renderer has no followed body, `render` leaves the
renderer state (camera included) unchanged, for every world — and in
this total model it returns normally, raising no error. -/
theorem C7_render_no_target (r : Renderer) (w : World) (h : r.target = none) :
    (renderFrame r w).1 = r := by
  simp [renderFrame, followTarget, h]

/-- Witness for C7 at a concrete targetless renderer and a concrete
world. -/
theorem C7_render_no_target_witness :
    (renderFrame (mkRenderer none 960 540 {})
      [⟨fun v => v, [{ kind := "circle" }]⟩]).1 = mkRenderer none 960 540 {} :=
  C7_render_no_target (mkRenderer none 960 540 {})
    [⟨fun v => v, [{ kind := "circle" }]⟩] rfl

/-- C5: a key press on a text-input-like target invokes no callback;
otherwise Space invokes `togglePause` exactly once (preventing the
default scroll), r/R invokes `reset` once, +/= invokes `zoomIn` once,
minus/underscore invokes `zoomOut` once, and any other key invokes
nothing. -/
theorem C5_key_dispatch (tag : Option String) (key : String) :
    (isTextInputTag tag = true → handleKeydown tag key = noDispatch)
    ∧ (isTextInputTag tag = false →
        (key = " " → handleKeydown tag key
            = { noDispatch with prevented := true, togglePause := 1 })
        ∧ (key = "r" ∨ key = "R" → handleKeydown tag key
            = { noDispatch with prevented := true, reset := 1 })
        ∧ (key = "+" ∨ key = "=" → handleKeydown tag key
            = { noDispatch with prevented := true, zoomIn := 1 })
        ∧ (key = "-" ∨ key = "_" → handleKeydown tag key
            = { noDispatch with prevented := true, zoomOut := 1 })
        ∧ (key ∉ boundKeys → handleKeydown tag key = noDispatch)) := by
  constructor
  · intro h
    simp [handleKeydown, h]
  · intro h
    refine ⟨?_, ?_, ?_, ?_, ?_⟩
    · rintro rfl
      simp [handleKeydown, h]
    · rintro (rfl | rfl) <;> simp [handleKeydown, h]
    · rintro (rfl | rfl) <;> simp [handleKeydown, h]
    · rintro (rfl | rfl) <;> simp [handleKeydown, h]
    · intro hnot
      simp only [boundKeys, List.mem_cons, List.not_mem_nil, or_false,
        not_or] at hnot
      obtain ⟨h1, h2, h3, h4, h5, h6, h7⟩ := hnot
      simp [handleKeydown, h, h1, h2, h3, h4, h5, h6, h7]

/-- Witness for C5: '=' with an INPUT focused calls nothing; '=' with no
text input focused calls `zoomIn` exactly once. -/
theorem C5_key_dispatch_witness :
    handleKeydown (some "INPUT") "=" = noDispatch
    ∧ handleKeydown none "="
        = { noDispatch with prevented := true, zoomIn := 1 } :=
  ⟨(C5_key_dispatch (some "INPUT") "=").1 rfl,
   ((C5_key_dispatch none "=").2 rfl).2.2.1 (Or.inr rfl)⟩

/-- C10: on every bound key pressed outside a text-input-like target,
the handler calls `preventDefault` — not only for Space. -/
theorem C10_preventDefault (tag : Option String) (key : String)
    (h : isTextInputTag tag = false) (hk : key ∈ boundKeys) :
    (handleKeydown tag key).prevented = true := by
  simp only [boundKeys, List.mem_cons, List.not_mem_nil, or_false] at hk
  rcases hk with rfl | rfl | rfl | rfl | rfl | rfl | rfl <;>
    simp [handleKeydown, h]

/-- Witness for C10 at the 'r' key with no event target. -/
theorem C10_preventDefault_witness :
    (handleKeydown none "r").prevented = true :=
  C10_preventDefault none "r" rfl (by decide)

/-- C8: terrain generation is deterministic — it is a pure function, so
two invocations give the same point list — producing 201 points whose
coordinates are a pure function of the index: point `n` is
`(n − 50, y(n − 50))` with `y` the stated sum of two sine waves of
different frequency and amplitude. -/
theorem C8_terrain_deterministic (sine : ℚ → ℚ) :
    terrainPoints sine = terrainPoints sine
    ∧ (terrainPoints sine).length = 201
    ∧ (∀ x : ℚ, terrainY sine x
        = sine (x * (1/5)) * (1/2) + sine (x * (1/20)) * (1/5))
    ∧ (∀ n : ℕ, n < 201 →
        (terrainPoints sine)[n]?
          = some ⟨(n : ℚ) - 50, terrainY sine ((n : ℚ) - 50)⟩) := by
  refine ⟨rfl, by simp only [terrainPoints, List.length_map, List.length_range],
    fun x => rfl, ?_⟩
  intro n hn
  simp [terrainPoints, List.getElem?_map, List.getElem?_range, hn]

/-- Witness for C8 at a concrete sine function and index. -/
theorem C8_terrain_deterministic_witness :
    (terrainPoints (fun x => x))[0]?
      = some ⟨((0 : ℕ) : ℚ) - 50, terrainY (fun x => x) (((0 : ℕ) : ℚ) - 50)⟩ :=
  (C8_terrain_deterministic (fun x => x)).2.2.2 0 (by decide)

/-- C9 counterexample: an unknown shape kind with the non-empty vertex
list `[⟨0,0⟩]` takes the fallback, but `_drawChain` then returns
without drawing (fewer than 2 vertices), so it is a no-op, not an open
polyline. -/
theorem C9_counterexample :
    drawFixture (mkRenderer none 960 540 {}) (fun v => v)
        { kind := "blob", vertices := some [⟨0, 0⟩] } = DrawResult.nothing
    ∧ ¬ ∃ pts, drawFixture (mkRenderer none 960 540 {}) (fun v => v)
        { kind := "blob", vertices := some [⟨0, 0⟩] }
          = DrawResult.openPolyline pts := by
  refine ⟨rfl, ?_⟩
  rintro ⟨pts, hpts⟩
  simp [drawFixture, drawChain] at hpts

/-- C9 (amended): drawing a fixture is a total function; an unknown
kind with at least two vertices is drawn as an open polyline, an
unknown kind with a missing, empty or single-element vertex list is a
silent no-op, and a polygon (resp. chain) with a missing or empty
(resp. shorter than 2) vertex list is a silent no-op. -/
theorem C9_drawFixture_fallback (r : Renderer) (bw : Vec → Vec) (s : Shape) :
    (s.kind ∉ (["circle", "polygon", "edge", "chain"] : List String) →
      (s.vertices = none → drawFixture r bw s = DrawResult.nothing)
      ∧ (∀ vs, s.vertices = some vs → vs.length < 2 →
          drawFixture r bw s = DrawResult.nothing)
      ∧ (∀ vs, s.vertices = some vs → 2 ≤ vs.length →
          drawFixture r bw s
            = DrawResult.openPolyline (vs.map (fun q => toScreen r (bw q)))))
    ∧ (s.kind = "polygon" → s.vertices = none →
        drawFixture r bw s = DrawResult.nothing)
    ∧ (s.kind = "polygon" → s.vertices = some [] →
        drawFixture r bw s = DrawResult.nothing)
    ∧ (s.kind = "chain" → s.vertices = none →
        drawFixture r bw s = DrawResult.nothing)
    ∧ (s.kind = "chain" → ∀ vs, s.vertices = some vs → vs.length < 2 →
        drawFixture r bw s = DrawResult.nothing) := by
  refine ⟨?_, ?_, ?_, ?_, ?_⟩
  · intro hk
    simp only [List.mem_cons, List.not_mem_nil, or_false, not_or] at hk
    obtain ⟨k1, k2, k3, k4⟩ := hk
    refine ⟨?_, ?_, ?_⟩
    · intro hv
      simp [drawFixture, k1, k2, k3, k4, hv]
    · intro vs hv hlen
      by_cases h0 : vs.length = 0
      · simp [drawFixture, k1, k2, k3, k4, hv, h0]
      · simp [drawFixture, k1, k2, k3, k4, hv, h0, drawChain, hlen]
    · intro vs hv hlen
      have hne : ¬ vs.length = 0 := by omega
      have hnl : ¬ vs.length < 2 := by omega
      simp [drawFixture, k1, k2, k3, k4, hv, hne, drawChain, hnl]
  · intro hk hv
    simp [drawFixture, hk, drawPolygon, hv]
  · intro hk hv
    simp [drawFixture, hk, drawPolygon, hv]
  · intro hk hv
    simp [drawFixture, hk, drawChain, hv]
  · intro hk vs hv hlen
    simp [drawFixture, hk, drawChain, hv, hlen]

/-- Witness for C9 at an unknown shape kind with two vertices. -/
theorem C9_drawFixture_fallback_witness :
    drawFixture (mkRenderer none 960 540 {}) (fun v => v)
        { kind := "blob", vertices := some [⟨0, 0⟩, ⟨1, 1⟩] }
      = DrawResult.openPolyline (([⟨0, 0⟩, ⟨1, 1⟩] : List Vec).map
          (fun q => toScreen (mkRenderer none 960 540 {}) ((fun v => v) q))) :=
  ((C9_drawFixture_fallback (mkRenderer none 960 540 {}) (fun v => v)
      { kind := "blob", vertices := some [⟨0, 0⟩, ⟨1, 1⟩] }).1 (by decide)).2.2
    [⟨0, 0⟩, ⟨1, 1⟩] rfl (by decide)

/-- Helper: the catch-up loop leaves a residual in `[0, fixedStep)` and
performs exactly the number of steps that accounts for the drained
time. -/
theorem drain_spec (acc : ℚ) :
    0 ≤ acc →
    0 ≤ (drain acc).1 ∧ (drain acc).1 < fixedStep
    ∧ ((drain acc).2 : ℚ) * fixedStep + (drain acc).1 = acc := by
  induction acc using drain.induct with
  | case1 acc h ih =>
      intro _
      have hstep : (0:ℚ) < fixedStep := by rw [fixedStep]; norm_num
      have hrec := ih (by linarith)
      rw [drain, dif_pos h]
      refine ⟨hrec.1, hrec.2.1, ?_⟩
      push_cast
      have h2 := hrec.2.2
      ring_nf
      ring_nf at h2
      linarith
  | case2 acc h =>
      intro h0
      rw [drain, dif_neg h]
      refine ⟨h0, by linarith [not_le.mp h], by simp⟩

/-- Helper: processing unpaused frames from any state with residual in
`[0, fixedStep)` keeps the residual in `[0, fixedStep)` and conserves
total time: steps × fixedStep + residual grows by exactly the sum of
the deltas. -/
theorem foldl_frame_spec (deltas : List ℚ) :
    ∀ st : ℚ × ℕ, (∀ d ∈ deltas, 0 ≤ d) → 0 ≤ st.1 → st.1 < fixedStep →
    0 ≤ (deltas.foldl (frame false) st).1
    ∧ (deltas.foldl (frame false) st).1 < fixedStep
    ∧ ((deltas.foldl (frame false) st).2 : ℚ) * fixedStep
        + (deltas.foldl (frame false) st).1
      = (st.2 : ℚ) * fixedStep + st.1 + deltas.sum := by
  induction deltas with
  | nil =>
      intro st _ h0 h1
      refine ⟨h0, h1, by simp⟩
  | cons d rest ih =>
      intro st hd h0 h1
      have hd0 : (0:ℚ) ≤ d := hd d (List.mem_cons_self d rest)
      have hdr : ∀ x ∈ rest, (0:ℚ) ≤ x := fun x hx => hd x (List.mem_cons_of_mem d hx)
      have hacc : (0:ℚ) ≤ st.1 + d := by linarith
      have hds := drain_spec (st.1 + d) hacc
      have hframe : frame false st d
          = ((drain (st.1 + d)).1, st.2 + (drain (st.1 + d)).2) := rfl
      have hrest := ih (frame false st d) hdr (by rw [hframe]; exact hds.1)
        (by rw [hframe]; exact hds.2.1)
      rw [List.foldl_cons]
      refine ⟨hrest.1, hrest.2.1, ?_⟩
      rw [hrest.2.2, hframe]
      push_cast
      have h3 := hds.2.2
      simp only [List.sum_cons]
      ring_nf
      ring_nf at h3
      linarith

/-- Helper: a step count with residual in `[0, fixedStep)` accounting
for total time `T` is exactly `⌊T / fixedStep⌋`. -/
theorem steps_eq_floor (n : ℕ) (a T : ℚ) (h0 : 0 ≤ a) (h1 : a < fixedStep)
    (hT : (n : ℚ) * fixedStep + a = T) :
    (n : ℤ) = ⌊T / fixedStep⌋ := by
  have hdiv : T / fixedStep = (n : ℚ) + a * 60 := by
    rw [← hT, fixedStep]
    field_simp
  have hb1 : (0:ℚ) ≤ a * 60 := by linarith
  have hb2 : a * 60 < 1 := by
    rw [fixedStep] at h1
    linarith
  symm
  rw [Int.floor_eq_iff]
  constructor
  · rw [hdiv]
    push_cast
    linarith
  · rw [hdiv]
    push_cast
    linarith

/-- C2: for every sequence of nonnegative frame delta-times with the
simulation unpaused, the loop driver leaves the residual accumulator in
`[0, fixedStep)` and executes exactly `⌊T / fixedStep⌋` physics steps
for `T` the sum of the deltas — in particular within
`⌊T / fixedStep⌋ ± 1` as the claim states. -/
theorem C2_fixed_timestep (deltas : List ℚ) (hd : ∀ d ∈ deltas, 0 ≤ d) :
    0 ≤ (runFrames false deltas).1
    ∧ (runFrames false deltas).1 < fixedStep
    ∧ ((runFrames false deltas).2 : ℚ) * fixedStep + (runFrames false deltas).1
        = deltas.sum
    ∧ ((runFrames false deltas).2 : ℤ) = ⌊deltas.sum / fixedStep⌋ := by
  have h := foldl_frame_spec deltas (0, 0) hd (le_refl 0)
    (by rw [fixedStep]; norm_num)
  have hsum : ((runFrames false deltas).2 : ℚ) * fixedStep
      + (runFrames false deltas).1 = deltas.sum := by
    have h2 := h.2.2
    simpa [runFrames] using h2
  exact ⟨h.1, h.2.1, hsum,
    steps_eq_floor (runFrames false deltas).2 (runFrames false deltas).1
      deltas.sum h.1 h.2.1 hsum⟩

/-- Witness for C2 on the concrete delta sequence `[2]` (two seconds in
one frame). -/
theorem C2_fixed_timestep_witness :
    0 ≤ (runFrames false [2]).1
    ∧ (runFrames false [2]).1 < fixedStep
    ∧ ((runFrames false [2]).2 : ℚ) * fixedStep + (runFrames false [2]).1
        = ([2] : List ℚ).sum
    ∧ ((runFrames false [2]).2 : ℤ) = ⌊([2] : List ℚ).sum / fixedStep⌋ :=
  C2_fixed_timestep [2] (by decide)

end CarBox
